import Mathlib

/-!
Verification development for the block-view query engine of bigwig-js
(a reader for BigWig / BigBed indexed genomic track files).

The JavaScript/TypeScript sources are shallowly embedded: pure functions
become Lean functions, the stateful observer pipeline becomes an explicit
event trace, JS numbers holding file offsets become `Int` (with the 32-bit
truncation of the `| 0` operator made explicit where the source uses it),
and IEEE floats that the claims treat only structurally become `ℚ`.
-/

namespace BigWigJS

/-! ### util.ts: groupBlocks

Source (src/util.ts, groupBlocks):

    blocks.sort((b0, b1) => (b0.offset | 0) - (b1.offset | 0))
    const blockGroups = []
    let lastBlock
    let lastBlockEnd
    for (let i = 0; i < blocks.length; i += 1) {
      if (lastBlock && blocks[i].offset - lastBlockEnd <= 2000) {
        lastBlock.size += blocks[i].size - lastBlockEnd + blocks[i].offset
        lastBlock.blocks.push(blocks[i])
      } else {
        blockGroups.push(
          (lastBlock = { blocks: [blocks[i]], size: blocks[i].size, offset: blocks[i].offset }))
      }
      lastBlockEnd = lastBlock.offset + lastBlock.size
    }
    return blockGroups
-/

/-- JavaScript ToInt32 as applied by the `| 0` operator: reduce modulo 2^32
into the signed 32-bit range. -/
def toInt32 (n : Int) : Int := (n + 2 ^ 31) % 2 ^ 32 - 2 ^ 31

/-- A data-block fetch descriptor `{ offset, size }` as built from a CIR-tree
leaf entry (blockView.ts names the second field `length`; util.ts and
requestWorker.ts name it `size`; it is the same u64 byte count). -/
structure FileBlock where
  offset : Int
  size : Int
  deriving DecidableEq, Repr

/-- The sort order actually used by groupBlocks: the comparator
`(b0.offset | 0) - (b1.offset | 0)` orders by the 32-bit-truncated offset. -/
def blockLe (a b : FileBlock) : Prop := toInt32 a.offset ≤ toInt32 b.offset

instance : DecidableRel blockLe :=
  fun a b => inferInstanceAs (Decidable (toInt32 a.offset ≤ toInt32 b.offset))

instance : IsTotal FileBlock blockLe :=
  ⟨fun a b => le_total (toInt32 a.offset) (toInt32 b.offset)⟩

instance : IsTrans FileBlock blockLe :=
  ⟨fun _ _ _ hab hbc => le_trans hab hbc⟩

/-- The in-place `Array.prototype.sort` of groupBlocks. ECMAScript sort is
stable, and a stable sort is extensionally determined by the comparator, so
we embed it as an insertion sort under `blockLe`. -/
def sortBlocks (blocks : List FileBlock) : List FileBlock :=
  blocks.insertionSort blockLe

/-- A group of coalesced blocks `{ blocks, size, offset }` as pushed onto
`blockGroups` in groupBlocks. -/
structure FileBlockGroup where
  blocks : List FileBlock
  size : Int
  offset : Int
  deriving DecidableEq, Repr

/-- The grouping loop of groupBlocks. `done` holds the groups already pushed
and left behind, `cur` is the group currently aliased by `lastBlock` (the
last element of the JS `blockGroups` array, mutated in place), and
`lastBlockEnd` is the loop variable of the same name, reassigned to
`lastBlock.offset + lastBlock.size` at the end of every iteration. -/
def groupLoop : List FileBlock → List FileBlockGroup → Option FileBlockGroup → Int →
    List FileBlockGroup
  | [], done, cur, _ => done ++ cur.toList
  | b :: rest, done, cur, lastBlockEnd =>
    match cur with
    | some c =>
      if b.offset - lastBlockEnd ≤ 2000 then
        let c' : FileBlockGroup :=
          { blocks := c.blocks ++ [b], size := c.size + (b.size - lastBlockEnd + b.offset),
            offset := c.offset }
        groupLoop rest done (some c') (c'.offset + c'.size)
      else
        let n : FileBlockGroup := { blocks := [b], size := b.size, offset := b.offset }
        groupLoop rest (done ++ [c]) (some n) (n.offset + n.size)
    | none =>
      let n : FileBlockGroup := { blocks := [b], size := b.size, offset := b.offset }
      groupLoop rest done (some n) (n.offset + n.size)

/-- groupBlocks. The first component is the contents of the caller's array
after the call (the JS sort mutates the argument in place); the second is the
returned list of block groups. -/
def groupBlocks (blocks : List FileBlock) : List FileBlock × List FileBlockGroup :=
  let sorted := sortBlocks blocks
  (sorted, groupLoop sorted [] none 0)

/-- Merging a block into the current group as the spec describes it:
the group is extended so that it covers the new block. -/
def specMerge (c : FileBlockGroup) (b : FileBlock) : FileBlockGroup :=
  { blocks := c.blocks ++ [b], size := b.offset + b.size - c.offset, offset := c.offset }

/-- The grouping walk as described by the (amended) claim: merge the next
block into the current group exactly when
`next.offset - (current.offset + current.size) ≤ 2000`, otherwise emit the
current group and start a new one at the next block. -/
def specAux : FileBlockGroup → List FileBlock → List FileBlockGroup
  | c, [] => [c]
  | c, b :: rest =>
    if b.offset - (c.offset + c.size) ≤ 2000 then specAux (specMerge c b) rest
    else c :: specAux { blocks := [b], size := b.size, offset := b.offset } rest

/-- The claim-shaped description of groupBlocks: sort, then walk with the
merge rule of `specAux`. -/
def groupBlocksSpec (blocks : List FileBlock) : List FileBlockGroup :=
  match sortBlocks blocks with
  | [] => []
  | b :: rest => specAux { blocks := [b], size := b.size, offset := b.offset } rest

/-! ### range.ts (src/unnamed/part_002): the Range class

The class declares `private ranges: any` and the constructor stores an array
of plain `{ min, max }` objects in it; `getRanges`, `contains`, `min`, `max`
all read `this.ranges` as an array. The `union` method, however, begins with

    const ranges = s0.ranges().concat(s1.ranges()).sort(this.rangeOrder)

calling the data property `ranges` as if it were a method, and the
comparator `rangeOrder` and the merge loop likewise invoke `min()` / `max()`
on the plain interval objects. In JavaScript, a call expression whose callee
is not a function raises a TypeError. The embedding makes property access
explicit: a slot is either a data property (whose value is an array or a
number, not callable) or a method; calling a data slot is a TypeError. -/

inductive JsError where
  | typeError
  deriving DecidableEq, Repr

/-- A property slot of a JS object: either a plain data property or a
method. Calling the former raises TypeError. -/
inductive JsProp (α : Type) where
  | dataProp (v : α)
  | methodProp (f : Unit → α)

/-- Evaluate a JS call expression `obj.p()`: only a method can be called. -/
def jsCall {α : Type} : JsProp α → Except JsError α
  | .dataProp _ => .error .typeError
  | .methodProp f => .ok (f ())

/-- A plain `{ min, max }` interval object as stored in `this.ranges`. -/
structure IntervalObj where
  min : Int
  max : Int
  deriving DecidableEq, Repr

/-- A Range instance: the constructor `new Range(min, max)` stores
`[{ min, max }]` in the `ranges` data property. -/
structure RangeObj where
  ranges : List IntervalObj
  deriving DecidableEq, Repr

/-- The `ranges` slot of a Range instance: a data property (the class stores
the interval array directly in it; there is no `ranges()` method). -/
def RangeObj.rangesProp (r : RangeObj) : JsProp (List IntervalObj) := .dataProp r.ranges

/-- The `min` slot of a plain interval object: a data property. -/
def IntervalObj.minProp (i : IntervalObj) : JsProp Int := .dataProp i.min

/-- The `max` slot of a plain interval object: a data property. -/
def IntervalObj.maxProp (i : IntervalObj) : JsProp Int := .dataProp i.max

/-- rangeOrder, the comparator passed to the sort in `union`; it calls
`a.min()`, `b.min()`, `a.max()`, `b.max()` on its arguments. -/
def rangeOrder (a b : IntervalObj) : Except JsError Int := do
  let am ← jsCall a.minProp
  let bm ← jsCall b.minProp
  if am < bm then return -1
  else if am > bm then return 1
  else do
    let aM ← jsCall a.maxProp
    let bM ← jsCall b.maxProp
    if aM < bM then return -1
    else if bM > aM then return 1
    else return 0

/-- Insertion step for the embedded `Array.prototype.sort` with an
effectful comparator (the comparator can raise, which aborts the sort). -/
def insertByM {α : Type} (cmp : α → α → Except JsError Int) (x : α) :
    List α → Except JsError (List α)
  | [] => .ok [x]
  | y :: ys => do
    let c ← cmp x y
    if c ≤ 0 then return x :: y :: ys
    else do
      let rest ← insertByM cmp x ys
      return y :: rest

/-- The embedded `Array.prototype.sort` with an effectful comparator. The
engine-specific comparison order does not matter here: every comparator
call in `union` raises before producing a number. -/
def sortByM {α : Type} (cmp : α → α → Except JsError Int) :
    List α → Except JsError (List α)
  | [] => .ok []
  | x :: xs => do
    let s ← sortByM cmp xs
    insertByM cmp x s

/-- The merge loop of `union` (lines 49-60 of the source): walk the sorted
intervals, pushing `current` when the next interval starts after
`current.max() + 1`, widening `current` when the next interval reaches
further. Every `min()` / `max()` here is a call on a plain interval object,
hence a TypeError; the loop is faithfully embedded but unreachable. -/
def unionLoop : IntervalObj → List IntervalObj → Except JsError (List IntervalObj)
  | current, [] => .ok [current]
  | current, nxt :: rest => do
    let nmin ← jsCall nxt.minProp
    let cmax ← jsCall current.maxProp
    if nmin > cmax + 1 then do
      let tail ← unionLoop nxt rest
      return current :: tail
    else do
      let nmax ← jsCall nxt.maxProp
      let cmax2 ← jsCall current.maxProp
      if nmax > cmax2 then do
        let cmin ← jsCall current.minProp
        unionLoop ⟨cmin, nmax⟩ rest
      else unionLoop current rest

/-- Range.union. The first statement evaluates `s0.ranges()` and
`s1.ranges()`; both are calls on a data property. -/
def RangeObj.union (s0 s1 : RangeObj) : Except JsError RangeObj := do
  let r0 ← jsCall s0.rangesProp
  let r1 ← jsCall s1.rangesProp
  let sorted ← sortByM rangeOrder (r0 ++ r1)
  match sorted with
  | [] => return ⟨[]⟩
  | c :: rest => do
    let oranges ← unionLoop c rest
    return ⟨oranges⟩

/-! ### blockView.ts: coordinate requests, features and block decoders

Scores and summary statistics are IEEE f32 in the file; the claims about
them are structural (which expression is computed), so they are embedded as
rationals. Byte-level parsing is done by the external binary-parser
library; a fetched data block is therefore embedded as its parse results:
the same bytes can be parsed as a summary-record sequence, a bigWig block
or a bigBed record sequence, and `BlockContent` carries all three views. -/

/-- The request `{ chrId, start, end }` built in readWigData. `chrId` is
the result of the `refsByName` lookup and is `undefined` (here `none`) when
the reference name is unknown; the source still builds and uses the request
in that case. -/
structure CoordRequest where
  chrId : Option Nat
  start : Int
  stop : Int
  deriving DecidableEq, Repr

/-- The uniform output feature object. Optional fields model properties that
a given decoder does not set. The source property `end` is called `stop`
here (`end` is reserved in Lean). -/
structure Feature where
  start : Int
  stop : Int
  score : Option ℚ := none
  minScore : Option ℚ := none
  maxScore : Option ℚ := none
  summary : Bool := false
  chromId : Option Nat := none
  rest : Option String := none
  uniqueId : Option String := none
  deriving DecidableEq, Repr

/-- coordFilter (blockView.ts lines 330-332):
`f.start < range.end && f.end >= range.start`. -/
def coordFilter (f : Feature) (range : CoordRequest) : Bool :=
  decide (f.start < range.stop) && decide (f.stop ≥ range.start)

/-- The tail of every decoder:
`return request ? items.filter(f => this.coordFilter(f, request)) : items`. -/
def applyCoordFilter (items : List Feature) : Option CoordRequest → List Feature
  | some r => items.filter fun f => coordFilter f r
  | none => items

/-- A 32-byte summary record as parsed by summaryParser (u32 chromId, u32
start, u32 end, u32 validCnt, then four f32 statistics). -/
structure SummaryRecord where
  chromId : Nat
  start : Nat
  stop : Nat
  validCnt : Nat
  minScore : ℚ
  maxScore : ℚ
  sumData : ℚ
  sumSqData : ℚ
  deriving DecidableEq, Repr

/-- parseSummaryBlock (blockView.ts lines 273-294): parse records to end of
buffer, filter by `elt.chromId === request.chrId` when a request is given,
project to features with `score: elt.sumData / (elt.validCnt || 1)` and
`summary: true`, then coordFilter when a request is given. -/
def parseSummaryBlock (records : List SummaryRecord) (request : Option CoordRequest) :
    List Feature :=
  let items : List SummaryRecord := match request with
    | some r => records.filter fun elt => some elt.chromId == r.chrId
    | none => records
  let feats := items.map fun elt =>
    ({ start := (elt.start : Int), stop := (elt.stop : Int),
       maxScore := some elt.maxScore, minScore := some elt.minScore,
       score := some (elt.sumData / (if elt.validCnt = 0 then 1 else (elt.validCnt : ℚ))),
       summary := true } : Feature)
  applyCoordFilter feats request

/-- A variable-step item as parsed by bigWigParser (i32 start, f32 score). -/
structure VStepItem where
  start : Int
  score : ℚ
  deriving DecidableEq, Repr

/-- A graph (bedGraph) item as parsed by bigWigParser (i32 start, i32 end,
f32 score). -/
structure GraphItem where
  start : Int
  stop : Int
  score : ℚ
  deriving DecidableEq, Repr

/-- The item area of a bigWig data block as produced by the binary-parser
`choice` keyed on the header byte `blockType`: scores only for FSTEP (3),
start/score pairs for VSTEP (2), start/end/score triples for GRAPH (1). A
`choice` with no matching tag and no defaultChoice raises
("Met undefined tag value ... at choice"); `unknown` records that case. -/
inductive BWBody where
  | graph (items : List GraphItem)
  | vstep (items : List VStepItem)
  | fstep (scores : List ℚ)
  | unknown (tag : Nat)
  deriving DecidableEq, Repr

/-- A bigWig data block after the 24-byte header has been parsed:
i32 blockStart, u32 itemStep, u32 itemSpan, and the tag-dependent items. -/
structure BWBlock where
  blockStart : Int
  itemStep : Nat
  itemSpan : Nat
  body : BWBody
  deriving DecidableEq, Repr

/-- The numeric header tag corresponding to the parsed body
(GRAPH = 1, VSTEP = 2, FSTEP = 3). -/
def BWBlock.blockType (b : BWBlock) : Nat :=
  match b.body with
  | .graph _ => 1
  | .vstep _ => 2
  | .fstep _ => 3
  | .unknown t => t

/-- Parse-failure raised while decoding a block. -/
inductive ParseErr where
  | unmatchedTag (tag : Nat)
  deriving DecidableEq, Repr

/-- parseBigWigBlock (blockView.ts lines 309-328). For FSTEP the source maps
`(feature, index) => ({ ...feature, start: index * step, end: index * step + span })`
(the parsed `blockStart` is not used); for VSTEP it sets
`end: feature.start + span`; GRAPH items pass through; an unmatched
blockType raises in the parser choice. Finally the coordFilter tail runs
when a request is given. -/
def parseBigWigBlock (b : BWBlock) (request : Option CoordRequest) :
    Except ParseErr (List Feature) :=
  match b.body with
  | .unknown t => .error (.unmatchedTag t)
  | .fstep scores =>
    let items := scores.mapIdx fun i s =>
      ({ start := ((i * b.itemStep : Nat) : Int),
         stop := ((i * b.itemStep + b.itemSpan : Nat) : Int),
         score := some s } : Feature)
    .ok (applyCoordFilter items request)
  | .vstep its =>
    let items := its.map fun it =>
      ({ start := it.start, stop := it.start + (b.itemSpan : Int),
         score := some it.score } : Feature)
    .ok (applyCoordFilter items request)
  | .graph its =>
    let items := its.map fun it =>
      ({ start := it.start, stop := it.stop, score := some it.score } : Feature)
    .ok (applyCoordFilter items request)

/-- A bigBed record (u32 chromId, i32 start, i32 end, zero-terminated rest);
`off` is the byte offset of the record used to build its uniqueId. -/
structure BigBedRecord where
  chromId : Nat
  start : Int
  stop : Int
  rest : String
  off : Nat
  deriving DecidableEq, Repr

/-- parseBigBedBlock (blockView.ts lines 296-307): records to end of buffer,
each given `uniqueId = "bb-" + offset`, then the coordFilter tail. -/
def parseBigBedBlock (records : List BigBedRecord) (request : Option CoordRequest) :
    List Feature :=
  let items := records.map fun r =>
    ({ start := r.start, stop := r.stop, chromId := some r.chromId,
       rest := some r.rest, uniqueId := some ("bb-" ++ toString r.off) } : Feature)
  applyCoordFilter items request

/-! ### blockView.ts: readFeatures and readWigData as an observer trace

The observer receives `next(features)` once per decoded block and a
terminal `complete()`; blockView.ts never calls `observer.error`. The
asynchronous per-group decodes of readFeatures are serialized in group
order here; the properties proved below do not depend on the inter-group
order. If a decode throws (the bigwig parser on an unknown blockType), the
exception aborts that group's remaining blocks and, since `Promise.all`
rejects, the final `complete()` is skipped. -/

/-- One observer callback. -/
inductive ObsEvent where
  | next (features : List Feature)
  | complete
  | error
  deriving DecidableEq, Repr

/-- A terminal observer callback (complete or error). -/
def isTerminal : ObsEvent → Bool
  | .next _ => false
  | .complete => true
  | .error => true

/-- The bytes of one fetched (and, if needed, inflated) data block, embedded
as their parse results under each of the three block parsers. -/
structure BlockContent where
  asSummary : List SummaryRecord
  asBigWig : BWBlock
  asBigBed : List BigBedRecord

/-- What decoding one block does: emit a feature batch via observer.next,
log a warning without emitting (the `default` arm of the switch on the
string block type), or raise. -/
inductive BlockDecode where
  | emit (features : List Feature)
  | warn
  | err
  deriving Repr

/-- The switch on `this.blockType` in readFeatures (blockView.ts lines
347-359), applied to one block's content. -/
def decodeOne (blockType : String) (c : BlockContent) (request : Option CoordRequest) :
    BlockDecode :=
  if blockType = "summary" then .emit (parseSummaryBlock c.asSummary request)
  else if blockType = "bigwig" then
    match parseBigWigBlock c.asBigWig request with
    | .ok fs => .emit fs
    | .error _ => .err
  else if blockType = "bigbed" then .emit (parseBigBedBlock c.asBigBed request)
  else .warn

/-- The `blockGroup.blocks.forEach` body for one group: observer.next per
decoded block, stopping the group (with a pending rejection) at the first
thrown decode. Returns the events of the group and whether it threw. -/
def blockListEvents (blockType : String) (file : Int → BlockContent)
    (request : Option CoordRequest) : List FileBlock → List ObsEvent × Bool
  | [] => ([], false)
  | b :: rest =>
    match decodeOne blockType (file b.offset) request with
    | .emit fs =>
      let p := blockListEvents blockType file request rest
      (.next fs :: p.1, p.2)
    | .warn => blockListEvents blockType file request rest
    | .err => ([], true)

/-- readFeatures (blockView.ts lines 334-364): group the block descriptors,
decode every group, then `observer.complete()` — unless some group's decode
threw, in which case the `Promise.all` rejects and complete is never
reached. -/
def readFeaturesEvents (blockType : String) (file : Int → BlockContent)
    (blocks : List FileBlock) (request : Option CoordRequest) : List ObsEvent :=
  let groups := (groupBlocks blocks).2
  let per := groups.map fun g => blockListEvents blockType file request g.blocks
  per.flatMap Prod.fst ++ (if per.any Prod.snd then [] else [ObsEvent.complete])

/-! ### blockView.ts: CIR-tree traversal -/

/-- The four range fields shared by internal and leaf CIR entries. -/
structure EntryBounds where
  startChrom : Nat
  startBase : Nat
  endChrom : Nat
  endBase : Nat
  deriving DecidableEq, Repr

/-- A leaf entry: bounds plus u64 blockOffset / blockSize. -/
structure LeafEntry where
  bounds : EntryBounds
  blockOffset : Int
  blockSize : Int
  deriving DecidableEq, Repr

mutual
/-- A parsed CIR node: a leaf holds data-block pointers, an internal node
holds bounded children. -/
inductive CirNode where
  | leaf (entries : List LeafEntry)
  | internal (entries : CirEntryList)
/-- The entry list of an internal CIR node (bounds plus child). -/
inductive CirEntryList where
  | nil
  | cons (bounds : EntryBounds) (child : CirNode) (rest : CirEntryList)
end

/-- filterFeats (blockView.ts lines 220-222). `chrId` is the possibly
undefined result of the `refsByName` lookup; in JavaScript every `<`, `>`
and `===` comparison of a number against undefined is false, so an
undefined chrId rejects every entry. -/
def filterFeats (chrId : Option Nat) (start stop : Int) (b : EntryBounds) : Bool :=
  match chrId with
  | none => false
  | some c =>
    (decide (b.startChrom < c) ||
      (decide (b.startChrom = c) && decide ((b.startBase : Int) ≤ stop))) &&
    (decide (b.endChrom > c) ||
      (decide (b.endChrom = c) && decide ((b.endBase : Int) ≥ start)))

mutual
/-- The data-block descriptors accumulated in `blocksToFetch` by the
cirFobRecur / cirFobRecur2 traversal: leaf entries passing filterFeats
become `{ offset: blockOffset, length: blockSize }` descriptors, children
of internal entries passing filterFeats are recursed into. The concurrent
discovery order is serialized in entry order. -/
def collectBlocks (chrId : Option Nat) (start stop : Int) : CirNode → List FileBlock
  | .leaf es =>
    (es.filter fun l => filterFeats chrId start stop l.bounds).map
      fun l => ⟨l.blockOffset, l.blockSize⟩
  | .internal es => collectBlocksEntries chrId start stop es
/-- Traversal of the entry list of an internal node. -/
def collectBlocksEntries (chrId : Option Nat) (start stop : Int) :
    CirEntryList → List FileBlock
  | .nil => []
  | .cons bounds child rest =>
    (if filterFeats chrId start stop bounds then collectBlocks chrId start stop child
     else []) ++ collectBlocksEntries chrId start stop rest
end

mutual
/-- How many CIR nodes the traversal fetches and parses: the node itself,
plus every child subtree whose entry passes filterFeats. -/
def countNodeReads (chrId : Option Nat) (start stop : Int) : CirNode → Nat
  | .leaf _ => 1
  | .internal es => 1 + countNodeReadsEntries chrId start stop es
/-- Node reads contributed by the entries of an internal node. -/
def countNodeReadsEntries (chrId : Option Nat) (start stop : Int) : CirEntryList → Nat
  | .nil => 0
  | .cons bounds child rest =>
    (if filterFeats chrId start stop bounds then countNodeReads chrId start stop child
     else 0) + countNodeReadsEntries chrId start stop rest
end

/-- The observable outcome of one readWigData call: the observer events in
order, and how many CIR-tree nodes were fetched and parsed. -/
structure WigTrace where
  events : List ObsEvent
  nodeReads : Nat
  deriving Repr

/-- readWigData (blockView.ts lines 193-271). The source looks up
`chrId = refsByName[chrName]` and, when it is undefined, calls
`observer.complete()` — and then falls through (there is no return
statement): the request object is still built with the undefined chrId, the
CIR-tree header is read, the traversal runs from the root, and readFeatures
runs on the (necessarily empty) descriptor list, which completes the
observer again. -/
def readWigData (refsByName : String → Option Nat) (chrName : String)
    (start stop : Int) (blockType : String) (root : CirNode)
    (file : Int → BlockContent) : WigTrace :=
  let chrId := refsByName chrName
  let pre : List ObsEvent := if chrId = none then [ObsEvent.complete] else []
  let request : CoordRequest := ⟨chrId, start, stop⟩
  let blocks := collectBlocks chrId start stop root
  ⟨pre ++ readFeaturesEvents blockType file blocks (some request),
   countNodeReads chrId start stop root⟩

/-! ### Concrete inputs used to settle individual claims -/

/-- A fixed-step block with a nonzero blockStart: header blockStart = 100,
itemStep = 10, itemSpan = 5, two scores. -/
def fstepBlock : BWBlock := ⟨100, 10, 5, .fstep [1, 2]⟩

/-- Two block descriptors whose gap is exactly 2048 bytes
(2058 - (0 + 10) = 2048). -/
def gapBlocks : List FileBlock := [⟨0, 10⟩, ⟨2058, 5⟩]

/-- Two block descriptors, one with an offset of 2^31 (representable as a
u64 file offset but outside the signed 32-bit range). -/
def hugeOffsetBlocks : List FileBlock := [⟨100, 1⟩, ⟨2147483648, 1⟩]

/-- Two block descriptors given in descending offset order. -/
def unsortedBlocks : List FileBlock := [⟨5000, 10⟩, ⟨0, 10⟩]

/-- A bigWig block whose header blockType byte is 5 (not GRAPH, VSTEP or
FSTEP). -/
def unknownTypeBlock : BWBlock := ⟨0, 0, 0, .unknown 5⟩

/-- Block content whose bigwig view is the unknown-type block. -/
def unknownTypeContent : BlockContent := ⟨[], unknownTypeBlock, []⟩

/-- A request on chromosome 0 for the interval 0..1000. -/
def chr0Request : CoordRequest := ⟨some 0, 0, 1000⟩

/-- An empty reference map: every refName is unknown. -/
def emptyRefs : String → Option Nat := fun _ => none

/-- A reference map with only chr1, mapped to chromId 0. -/
def chr1Refs : String → Option Nat := fun n => if n = "chr1" then some 0 else none

/-- A one-leaf CIR tree whose single entry covers chromId 0, bases
0..1000, pointing at a data block at offset 5000 of 32 bytes. -/
def leafTree : CirNode := .leaf [⟨⟨0, 0, 0, 1000⟩, 5000, 32⟩]

/-- Block content that parses to nothing under every view. -/
def emptyContent : BlockContent := ⟨[], ⟨0, 0, 0, .fstep []⟩, []⟩

/-- A file whose every block is empty. -/
def emptyFile : Int → BlockContent := fun _ => emptyContent

/-- A summary record on chromId 0, interval 10..20, validCnt 1, min 0,
max 1, sum 5, sumSq 0. -/
def sumRec : SummaryRecord := ⟨0, 10, 20, 1, 0, 1, 5, 0⟩

/-- The feature that `sumRec` projects to; its score is 5 / 1 = 5. -/
def sumFeat : Feature :=
  { start := 10, stop := 20, score := some (5 / ((1 : Nat) : ℚ)), minScore := some 0,
    maxScore := some 1, summary := true }

/-- A file whose every block parses to the single summary record `sumRec`. -/
def sumFile : Int → BlockContent := fun _ => ⟨[sumRec], ⟨0, 0, 0, .fstep []⟩, []⟩

/-- A summary record with validCnt = 0 (the division fallback case):
chromId 0, interval 100..200, min -1, max 3, sum 20, sumSq 50. -/
def zeroCntRec : SummaryRecord := ⟨0, 100, 200, 0, -1, 3, 20, 50⟩

/-- The feature that `zeroCntRec` projects to: its score is
sumData / 1 = 20 (the `validCnt || 1` fallback avoids dividing by zero). -/
def zeroCntFeat : Feature :=
  { start := 100, stop := 200, score := some ((20 : ℚ) / 1), minScore := some (-1),
    maxScore := some 3, summary := true }

/-! ### Supporting lemmas -/

/-- ToInt32 is the identity on values already in the non-negative signed
32-bit range. -/
theorem toInt32_eq_self {n : Int} (h0 : 0 ≤ n) (h1 : n < 2 ^ 31) : toInt32 n = n := by
  unfold toInt32
  omega

/-- The grouping loop, started on a current group whose `lastBlockEnd`
satisfies the loop invariant `lastBlockEnd = current.offset + current.size`,
computes the claim-shaped walk `specAux`. -/
theorem groupLoop_eq_specAux (rest : List FileBlock) :
    ∀ (done : List FileBlockGroup) (c : FileBlockGroup),
      groupLoop rest done (some c) (c.offset + c.size) = done ++ specAux c rest := by
  induction rest with
  | nil => intro done c; rfl
  | cons b rest ih =>
    intro done c
    by_cases h : b.offset - (c.offset + c.size) ≤ 2000
    · simp only [groupLoop, specAux, if_pos h]
      have hc :
          (⟨c.blocks ++ [b], c.size + (b.size - (c.offset + c.size) + b.offset),
            c.offset⟩ : FileBlockGroup) = specMerge c b := by
        simp only [specMerge, FileBlockGroup.mk.injEq]
        exact ⟨trivial, by ring, trivial⟩
      rw [hc]
      have harg : c.offset + (c.size + (b.size - (c.offset + c.size) + b.offset)) =
          (specMerge c b).offset + (specMerge c b).size := by
        simp only [specMerge]
        ring
      rw [harg]
      exact ih done (specMerge c b)
    · simp only [groupLoop, specAux, if_neg h]
      rw [ih (done ++ [c]) ⟨[b], b.size, b.offset⟩]
      simp

/-! ### Claims about groupBlocks (C4, C5, C10) -/

/-- C4 (counterexample): with blocks at offsets 0 (size 10) and 2058
(size 5) the gap is 2058 − (0 + 10) = 2048 ≤ 2048, so the claim predicts a
single merged group; groupBlocks produces two groups, because its
threshold is 2000, not 2048. -/
theorem groupBlocks_gap_2048_not_merged :
    ((2058 : Int) - (0 + 10) ≤ 2048) ∧
      (groupBlocks gapBlocks).2 = [⟨[⟨0, 10⟩], 10, 0⟩, ⟨[⟨2058, 5⟩], 5, 2058⟩] := by
  exact ⟨by norm_num, by decide⟩

/-- C4 (amended): groupBlocks walks the sorted blocks and merges the next
block into the current non-empty group exactly when
`next.offset - (current.offset + current.size) ≤ 2000` (not 2048), in which
case the group size becomes `next.offset + next.size - current.offset` and
the block is appended to the group; otherwise the current group is emitted
and a new group starts at the next block. -/
theorem groupBlocks_merge_rule :
    ∀ blocks : List FileBlock, (groupBlocks blocks).2 = groupBlocksSpec blocks := by
  intro blocks
  simp only [groupBlocks, groupBlocksSpec]
  cases hsb : sortBlocks blocks with
  | nil => rfl
  | cons b rest =>
    simp only [groupLoop]
    exact groupLoop_eq_specAux rest [] ⟨[b], b.size, b.offset⟩

/-- C5: the sort comparator `(b0.offset | 0) - (b1.offset | 0)` truncates
offsets to signed 32 bits, so the block at offset 2^31 (which truncates to
−2^31) is ordered before the block at offset 100: the caller's array ends
up in descending unsigned order, contradicting the claimed ascending
unsigned sort. -/
theorem groupBlocks_sort_truncated_order :
    (groupBlocks hugeOffsetBlocks).1 = [⟨2147483648, 1⟩, ⟨100, 1⟩] ∧
      ¬ (2147483648 : Int) ≤ 100 := by
  exact ⟨by decide, by norm_num⟩

/-- C10: groupBlocks mutates its argument. The caller's array after the
call is a permutation of the original, sorted under the comparator the
source uses (and, whenever all offsets fit in 31 bits, sorted ascending by
offset); on the concrete descending input it differs from the original
order. -/
theorem groupBlocks_sorts_in_place :
    (∀ bs : List FileBlock,
      ((groupBlocks bs).1.Perm bs ∧ (groupBlocks bs).1.Sorted blockLe) ∧
        ((∀ b ∈ bs, 0 ≤ b.offset ∧ b.offset < 2 ^ 31) →
          (groupBlocks bs).1.Sorted fun a b => a.offset ≤ b.offset)) ∧
      (groupBlocks unsortedBlocks).1 ≠ unsortedBlocks := by
  constructor
  · intro bs
    have hperm : (groupBlocks bs).1.Perm bs := List.perm_insertionSort blockLe bs
    have hsorted : (groupBlocks bs).1.Sorted blockLe := List.sorted_insertionSort blockLe bs
    refine ⟨⟨hperm, hsorted⟩, fun hb => ?_⟩
    refine List.Pairwise.imp_of_mem ?_ hsorted
    intro a b ha hb' hr
    have h0 := hb a (hperm.subset ha)
    have h1 := hb b (hperm.subset hb')
    have ha32 := toInt32_eq_self h0.1 h0.2
    have hb32 := toInt32_eq_self h1.1 h1.2
    unfold blockLe at hr
    rw [ha32, hb32] at hr
    exact hr
  · decide

/-- C10 (witness): on the concrete input the post-call array is sorted
ascending by offset. -/
theorem groupBlocks_sorts_in_place_witness :
    (groupBlocks unsortedBlocks).1.Sorted fun a b => a.offset ≤ b.offset :=
  (groupBlocks_sorts_in_place.1 unsortedBlocks).2 (by decide)

/-! ### Claim about Range.union (C6) -/

/-- C6: Range.union can satisfy no algebraic law because it never returns:
`union` begins by calling `s0.ranges()`, but `ranges` is an array-valued
data property of the class (every other method reads it as data), so on the
very first pair of ranges — here [0,5] and [10,20] — the call raises a
TypeError before any merging happens. -/
theorem range_union_raises_typeError :
    RangeObj.union ⟨[⟨0, 5⟩]⟩ ⟨[⟨10, 20⟩]⟩ = .error .typeError := rfl

/-! ### Claims about the bigWig block decoder (C1, C9) -/

/-- C1: in a fixed-step block with blockStart = 100, itemStep = 10,
itemSpan = 5, the decoder emits starts 0 and 10 — `index * itemStep`
without the parsed blockStart — whereas the claim prescribes
`blockStart + index * itemStep` (100 and 110): the feature at index 1 has
start 10 ≠ 110. -/
theorem parseBigWigBlock_fstep_drops_blockStart :
    parseBigWigBlock fstepBlock none =
      .ok [{ start := 0, stop := 5, score := some 1 },
        { start := 10, stop := 15, score := some 2 }] ∧
      (10 : Int) ≠ fstepBlock.blockStart + 1 * (fstepBlock.itemStep : Int) := by
  exact ⟨rfl, by decide⟩

/-- C9 (counterexample): a bigWig block whose header blockType is 5 does
not produce a logged warning and an empty feature list; the binary-parser
choice has no default branch for it, so decoding raises, and in the
readFeatures pipeline the block decode throws instead of emitting. -/
theorem parseBigWigBlock_unknown_type_errors :
    parseBigWigBlock unknownTypeBlock (some chr0Request) = .error (.unmatchedTag 5) ∧
      decodeOne "bigwig" unknownTypeContent (some chr0Request) = .err := ⟨rfl, rfl⟩

/-- C9 (amended): decoding a bigWig block whose blockType is none of
1 (GRAPH), 2 (VSTEP) or 3 (FSTEP) raises a parse error (the parser choice
meets an undefined tag); no features are emitted and no warning is logged
by the bigwig decoder. -/
theorem parseBigWigBlock_unknown_type_spec (b : BWBlock) (req : Option CoordRequest)
    (t : Nat) (h : b.body = .unknown t) :
    parseBigWigBlock b req = .error (.unmatchedTag t) := by
  unfold parseBigWigBlock
  rw [h]

/-- C9 (witness): the amended statement at the concrete blockType-5 block. -/
theorem parseBigWigBlock_unknown_type_spec_witness :
    parseBigWigBlock unknownTypeBlock none = .error (.unmatchedTag 5) :=
  parseBigWigBlock_unknown_type_spec unknownTypeBlock none 5 rfl

/-! ### Claim about the summary decoder (C8) -/

/-- The JS fallback `validCnt || 1` computes max(validCnt, 1) on unsigned
counts. -/
theorem validCnt_fallback (n : Nat) :
    (if n = 0 then (1 : ℚ) else (n : ℚ)) = ((max n 1 : Nat) : ℚ) := by
  cases n with
  | zero => simp
  | succ m =>
    have hmax : max (m + 1) 1 = m + 1 := Nat.max_eq_left (Nat.succ_le_succ (Nat.zero_le m))
    simp [hmax]

/-- C8: every feature emitted by the summary decoder comes from a record of
the block and carries score = sumData / max(validCnt, 1) (so a record with
validCnt = 0 gets score sumData / 1 = sumData), summary = true, and
minScore / maxScore copied from the record. -/
theorem parseSummaryBlock_score_formula (records : List SummaryRecord)
    (request : Option CoordRequest) (f : Feature)
    (hf : f ∈ parseSummaryBlock records request) :
    ∃ elt ∈ records,
      f.score = some (elt.sumData / ((max elt.validCnt 1 : Nat) : ℚ)) ∧
        f.summary = true ∧ f.minScore = some elt.minScore ∧
        f.maxScore = some elt.maxScore ∧ f.start = (elt.start : Int) ∧
        f.stop = (elt.stop : Int) := by
  simp only [parseSummaryBlock] at hf
  have main : ∀ (items : List SummaryRecord), (∀ x ∈ items, x ∈ records) →
      ∀ g ∈ items.map fun elt =>
        ({ start := (elt.start : Int), stop := (elt.stop : Int),
           maxScore := some elt.maxScore, minScore := some elt.minScore,
           score := some (elt.sumData /
             (if elt.validCnt = 0 then 1 else (elt.validCnt : ℚ))),
           summary := true } : Feature),
      ∃ elt ∈ records,
        g.score = some (elt.sumData / ((max elt.validCnt 1 : Nat) : ℚ)) ∧
          g.summary = true ∧ g.minScore = some elt.minScore ∧
          g.maxScore = some elt.maxScore ∧ g.start = (elt.start : Int) ∧
          g.stop = (elt.stop : Int) := by
    intro items hsub g hg
    rcases List.mem_map.mp hg with ⟨elt, helt, rfl⟩
    exact ⟨elt, hsub elt helt, by rw [validCnt_fallback], rfl, rfl, rfl, rfl, rfl⟩
  cases request with
  | none => exact main records (fun x hx => hx) f hf
  | some r =>
    have hf2 := (List.mem_filter.mp hf).1
    exact main (records.filter fun elt => some elt.chromId == r.chrId)
      (fun x hx => List.mem_of_mem_filter hx) f hf2

/-- C8 (witness): the concrete record with validCnt = 0 yields a feature
whose score is sumData / max(0, 1) = sumData. -/
theorem parseSummaryBlock_score_formula_witness :
    ∃ elt ∈ [zeroCntRec],
      zeroCntFeat.score = some (elt.sumData / ((max elt.validCnt 1 : Nat) : ℚ)) ∧
        zeroCntFeat.summary = true ∧ zeroCntFeat.minScore = some elt.minScore ∧
        zeroCntFeat.maxScore = some elt.maxScore ∧ zeroCntFeat.start = (elt.start : Int) ∧
        zeroCntFeat.stop = (elt.stop : Int) :=
  parseSummaryBlock_score_formula [zeroCntRec] none zeroCntFeat (List.Mem.head _)

/-! ### Claims about readWigData (C2, C3, C7) -/

/-- C2: with an empty reference map the query "chr1" 0..1000 does not stop
after the first observer.complete(): the missing return means the CIR root
is still fetched and parsed (one node read, not zero) and readFeatures
completes the observer a second time, so the trace is
[complete, complete]. observer.next is indeed never called. -/
theorem readWigData_unknown_ref_continues :
    (readWigData emptyRefs "chr1" 0 1000 "bigwig" leafTree emptyFile).events =
      [.complete, .complete] ∧
      (readWigData emptyRefs "chr1" 0 1000 "bigwig" leafTree emptyFile).nodeReads = 1 := by
  exact ⟨by decide, rfl⟩

/-- C3: on the unknown-reference query the observer receives two terminal
callbacks (complete twice), refuting the at-most-one-terminal-call
guarantee. -/
theorem readWigData_terminal_called_twice :
    ((readWigData emptyRefs "chr1" 0 1000 "bigwig" leafTree emptyFile).events.countP
      isTerminal) = 2 := by
  decide

/-- Features surviving the coordFilter tail overlap the request interval. -/
theorem mem_applyCoordFilter {items : List Feature} {r : CoordRequest} {f : Feature}
    (h : f ∈ applyCoordFilter items (some r)) : f.start < r.stop ∧ f.stop ≥ r.start := by
  have h2 := (List.mem_filter.mp h).2
  simp only [coordFilter, Bool.and_eq_true, decide_eq_true_eq] at h2
  exact h2

/-- Every feature produced by the summary decoder under a request passes
the coordinate filter. -/
theorem parseSummaryBlock_overlap {recs : List SummaryRecord} {r : CoordRequest}
    {f : Feature} (h : f ∈ parseSummaryBlock recs (some r)) :
    f.start < r.stop ∧ f.stop ≥ r.start := by
  simp only [parseSummaryBlock] at h
  exact mem_applyCoordFilter h

/-- Every feature produced by the bigwig decoder under a request passes
the coordinate filter. -/
theorem parseBigWigBlock_overlap {b : BWBlock} {r : CoordRequest} {fs : List Feature}
    {f : Feature} (h : parseBigWigBlock b (some r) = .ok fs) (hf : f ∈ fs) :
    f.start < r.stop ∧ f.stop ≥ r.start := by
  unfold parseBigWigBlock at h
  split at h
  · exact absurd h (by simp)
  · injection h with h'
    subst h'
    exact mem_applyCoordFilter hf
  · injection h with h'
    subst h'
    exact mem_applyCoordFilter hf
  · injection h with h'
    subst h'
    exact mem_applyCoordFilter hf

/-- Every feature produced by the bigbed decoder under a request passes
the coordinate filter. -/
theorem parseBigBedBlock_overlap {recs : List BigBedRecord} {r : CoordRequest}
    {f : Feature} (h : f ∈ parseBigBedBlock recs (some r)) :
    f.start < r.stop ∧ f.stop ≥ r.start := by
  simp only [parseBigBedBlock] at h
  exact mem_applyCoordFilter h

/-- Every feature batch that decoding one block emits under a request
contains only features passing the coordinate filter. -/
theorem decodeOne_overlap {bt : String} {c : BlockContent} {r : CoordRequest}
    {fs : List Feature} {f : Feature} (h : decodeOne bt c (some r) = .emit fs)
    (hf : f ∈ fs) : f.start < r.stop ∧ f.stop ≥ r.start := by
  unfold decodeOne at h
  split_ifs at h
  · injection h with h'
    subst h'
    exact parseSummaryBlock_overlap hf
  · split at h
    · injection h with h'
      subst h'
      exact parseBigWigBlock_overlap (by assumption) hf
    · exact BlockDecode.noConfusion h
  · injection h with h'
    subst h'
    exact parseBigBedBlock_overlap hf

/-- Every next event of one group's decode loop comes from decoding one of
the group's blocks. -/
theorem next_mem_blockListEvents {bt : String} {file : Int → BlockContent}
    {req : Option CoordRequest} : ∀ {bs : List FileBlock} {fs : List Feature},
    ObsEvent.next fs ∈ (blockListEvents bt file req bs).1 →
    ∃ b ∈ bs, decodeOne bt (file b.offset) req = .emit fs := by
  intro bs
  induction bs with
  | nil => intro fs h; simp [blockListEvents] at h
  | cons b rest ih =>
    intro fs h
    unfold blockListEvents at h
    split at h
    · rcases List.mem_cons.mp h with heq | hmem
      · injection heq with h'
        subst h'
        exact ⟨b, List.mem_cons_self b rest, by assumption⟩
      · rcases ih hmem with ⟨b', hb', hd⟩
        exact ⟨b', List.mem_cons_of_mem b hb', hd⟩
    · rcases ih h with ⟨b', hb', hd⟩
      exact ⟨b', List.mem_cons_of_mem b hb', hd⟩
    · simp at h

/-- Every next event of readFeatures comes from one group's decode loop. -/
theorem next_mem_readFeaturesEvents {bt : String} {file : Int → BlockContent}
    {blocks : List FileBlock} {req : Option CoordRequest} {fs : List Feature}
    (h : ObsEvent.next fs ∈ readFeaturesEvents bt file blocks req) :
    ∃ g ∈ (groupBlocks blocks).2,
      ObsEvent.next fs ∈ (blockListEvents bt file req g.blocks).1 := by
  unfold readFeaturesEvents at h
  rcases List.mem_append.mp h with h' | h'
  · rcases List.mem_flatMap.mp h' with ⟨p, hp, hmem⟩
    rcases List.mem_map.mp hp with ⟨g, hg, rfl⟩
    exact ⟨g, hg, hmem⟩
  · exfalso
    split at h' <;> simp at h'

/-- C7: every feature delivered through observer.next for a readWigData
query (whatever the block type) satisfies
f.start < request.end and f.end ≥ request.start. -/
theorem readWigData_features_overlap_request
    (refsByName : String → Option Nat) (chrName : String) (start stop : Int)
    (blockType : String) (root : CirNode) (file : Int → BlockContent)
    (fs : List Feature) (f : Feature)
    (hev : ObsEvent.next fs ∈
      (readWigData refsByName chrName start stop blockType root file).events)
    (hf : f ∈ fs) : f.start < stop ∧ f.stop ≥ start := by
  simp only [readWigData] at hev
  rcases List.mem_append.mp hev with h' | h'
  · exfalso
    split at h' <;> simp at h'
  · rcases next_mem_readFeaturesEvents h' with ⟨g, _, hmem⟩
    rcases next_mem_blockListEvents hmem with ⟨b, _, hdec⟩
    exact decodeOne_overlap hdec hf

/-- C7 (witness): the concrete summary query emits sumFeat, which overlaps
the request 0..1000. -/
theorem readWigData_features_overlap_request_witness :
    sumFeat.start < 1000 ∧ sumFeat.stop ≥ 0 :=
  readWigData_features_overlap_request chr1Refs "chr1" 0 1000 "summary" leafTree sumFile
    [sumFeat] sumFeat (List.Mem.head _) (List.Mem.head _)

end BigWigJS
